import Mathlib

/-!
Shallow embedding of the React frontend of Gappy-Video-Sound-Descriptor
(src/frontend/src/pages/HomePage.js: the upload page `HomePage` and the
full editor variant `EditorPage` with export-progress simulation and
audio single-flight, which the spec designates as canonical).

Asynchronous network calls are modelled by passing each request's result
(`Except String α`) as a parameter; each handler returns the updated
component state together with the list of network requests it issued,
in issue order, and (where relevant) the navigation target.
-/

namespace GappyVSD

/-- A toast notification, as produced by the `sonner` library calls. -/
inductive Toast where
  | error (msg : String)
  | success (msg : String)
  | info (msg : String)
  deriving DecidableEq, Repr

/-- A network request issued by the UI, carrying the data the code sends. -/
inductive Request where
  | uploadReq (fileName : String)
  | analyzeReq (projectId : String)
  | getProjectReq (projectId : String)
  | getScenesReq (projectId : String)
  | putSceneReq (sceneId : String) (description : String)
  | exportReq (projectId : String) (format : String)
  deriving DecidableEq, Repr

/-- A browser file object: the fields the upload page reads. -/
structure FileObj where
  name : String
  type : String
  deriving DecidableEq, Repr

/-- State of the `HomePage` component (upload screen). -/
structure UploadState where
  selectedFile : Option FileObj
  uploading : Bool
  dragActive : Bool
  toasts : List Toast
  deriving DecidableEq, Repr

/-- Initial `HomePage` state (`useState` initialisers). -/
def initUploadState : UploadState :=
  { selectedFile := none, uploading := false, dragActive := false, toasts := [] }

/-- JS `String.prototype.startsWith(pre)`: `s` begins with `pre`. -/
def jsStartsWith (s pre : String) : Bool :=
  pre.toList.isPrefixOf s.toList

/-- `file.type.startsWith('video/')` — the client-side MIME check. -/
def isVideo (f : FileObj) : Bool :=
  jsStartsWith f.type "video/"

/-- `handleFileSelect`: if a first file exists, accept it when its MIME type
starts with `video/`, otherwise toast an error. Issues no network request. -/
def handleFileSelect (s : UploadState) (files : List FileObj) :
    UploadState × List Request :=
  match files with
  | [] => (s, [])
  | f :: _ =>
    if isVideo f then
      ({ s with selectedFile := some f }, [])
    else
      ({ s with toasts := s.toasts ++ [.error "Please upload a video file"] }, [])

/-- `handleDrop`: clears the drag highlight, then behaves like
`handleFileSelect` on the dropped file list. Issues no network request. -/
def handleDrop (s : UploadState) (files : List FileObj) :
    UploadState × List Request :=
  let s1 : UploadState := { s with dragActive := false }
  match files with
  | [] => (s1, [])
  | f :: _ =>
    if isVideo f then
      ({ s1 with selectedFile := some f }, [])
    else
      ({ s1 with toasts := s1.toasts ++ [.error "Please upload a video file"] }, [])

/-- Result of running `handleUpload` to completion: final component state,
the network requests issued in order, and the navigation target if any. -/
structure UploadOutcome where
  state : UploadState
  calls : List Request
  navigatedTo : Option String
  deriving DecidableEq, Repr

/-- `handleUpload`: with no selection, toast an error and stop. Otherwise
POST `/upload`; on failure the catch block toasts an error. On success,
read the project id and POST `/analyze/{id}`; on failure the same catch
toasts. When both succeed, navigate to `/editor/{id}`. The `finally`
block clears the `uploading` flag on every path; `selectedFile` is never
modified. -/
def handleUpload (s : UploadState) (uploadRes : Except String String)
    (analyzeRes : Except String Unit) : UploadOutcome :=
  match s.selectedFile with
  | none =>
    { state := { s with toasts := s.toasts ++ [.error "Please select a video file"] }
      calls := []
      navigatedTo := none }
  | some f =>
    let s1 : UploadState := { s with uploading := true }
    match uploadRes with
    | .error _ =>
      { state := { s1 with
          toasts := s1.toasts ++ [.error "Failed to upload video"]
          uploading := false }
        calls := [.uploadReq f.name]
        navigatedTo := none }
    | .ok projectId =>
      let s2 : UploadState := { s1 with
        toasts := s1.toasts ++ [.success "Video uploaded successfully!",
          .info "Analyzing video for scene cuts..."] }
      match analyzeRes with
      | .error _ =>
        { state := { s2 with
            toasts := s2.toasts ++ [.error "Failed to upload video"]
            uploading := false }
          calls := [.uploadReq f.name, .analyzeReq projectId]
          navigatedTo := none }
      | .ok _ =>
        { state := { s2 with
            toasts := s2.toasts ++ [.success "Analysis complete!"]
            uploading := false }
          calls := [.uploadReq f.name, .analyzeReq projectId]
          navigatedTo := some ("/editor/" ++ projectId) }

/-- A scene record, as returned by `GET /projects/{id}/scenes`. The
timestamp is kept as a rational (JS numbers are only rendered, never
computed on, in the modelled handlers). -/
structure Scene where
  id : String
  timestamp : ℚ
  description : String
  thumbnail_path : String
  audio_path : String
  deriving DecidableEq, Repr

/-- Project metadata, as returned by `GET /projects/{id}`. -/
structure Project where
  id : String
  original_filename : String
  deriving DecidableEq, Repr

/-- An `Audio` element: the fields the editor reads and writes. -/
structure AudioObj where
  src : String
  paused : Bool
  currentTime : ℚ
  deriving DecidableEq, Repr

instance : Inhabited AudioObj := ⟨{ src := "", paused := true, currentTime := 0 }⟩

/-- The set of `Audio` elements ever constructed (indexed by creation
order) together with the `currentAudio` state variable, which holds the
index of the tracked element, if any. -/
structure AudioSys where
  objs : List AudioObj
  current : Option ℕ
  deriving DecidableEq, Repr

/-- Replace the element at index `i`, if it exists, by `f` of it. -/
def modifyAt (l : List α) (i : ℕ) (f : α → α) : List α :=
  match l, i with
  | [], _ => []
  | a :: t, 0 => f a :: t
  | a :: t, n + 1 => a :: modifyAt t n f

/-- `audio.pause(); audio.currentTime = 0` on one element. -/
def pauseAndReset (a : AudioObj) : AudioObj :=
  { a with paused := true, currentTime := 0 }

/-- The guard `if (currentAudio) { currentAudio.pause();
currentAudio.currentTime = 0; }` shared by `playAudio` (which keeps the
reference) and `handleEditScene` / the unmount cleanup (which clear it). -/
def stopTracked (sys : AudioSys) : AudioSys :=
  match sys.current with
  | some i => { sys with objs := modifyAt sys.objs i pauseAndReset }
  | none => sys

/-- `audioPath.split('/').pop()`. -/
def lastPathComponent (p : String) : String :=
  (p.splitOn "/").getLastD ""

/-- The audio URL `${API}/audio/${projectId}/${fileName}` built by
`playAudio`. -/
def audioUrl (api projectId audioPath : String) : String :=
  api ++ "/audio/" ++ projectId ++ "/" ++ lastPathComponent audioPath

/-- `new Audio(audioUrl)` followed by `setCurrentAudio(audio);
audio.play()...`: allocates a fresh element. When `play()` resolves, the
element is unpaused and stays tracked; when it rejects, the catch
handler toasts and calls `setCurrentAudio(null)`, and the element never
started playing. -/
def startNew (url : String) (playOk : Bool) (sys : AudioSys) : AudioSys :=
  { objs := sys.objs ++ [{ src := url, paused := !playOk, currentTime := 0 }]
    current := if playOk then some sys.objs.length else none }

/-- `playAudio(audioPath)`: stop the tracked clip (keeping the
reference), then construct and start the new one under the computed URL. -/
def playAudio (api projectId audioPath : String) (playOk : Bool)
    (sys : AudioSys) : AudioSys :=
  startNew (audioUrl api projectId audioPath) playOk (stopTracked sys)

/-- Every constructed audio element is paused. -/
def AllPaused (sys : AudioSys) : Prop :=
  ∀ j, j < sys.objs.length → (sys.objs.getD j default).paused = true

/-- Single-flight invariant: any unpaused element is the tracked one
(hence at most one element is unpaused). -/
def OnlyCurrentPlaying (sys : AudioSys) : Prop :=
  ∀ j, j < sys.objs.length →
    (sys.objs.getD j default).paused = false → sys.current = some j

instance (sys : AudioSys) : Decidable (AllPaused sys) := by
  unfold AllPaused; infer_instance

instance (sys : AudioSys) : Decidable (OnlyCurrentPlaying sys) := by
  unfold OnlyCurrentPlaying; infer_instance

/-- State of the `EditorPage` component (full variant). -/
structure EditorState where
  project : Option Project
  scenes : List Scene
  loading : Bool
  editingScene : Option String
  editText : String
  saving : Bool
  audio : AudioSys
  toasts : List Toast
  deriving DecidableEq, Repr

/-- Initial `EditorPage` state (`useState` initialisers). -/
def initEditorState : EditorState :=
  { project := none, scenes := [], loading := true, editingScene := none
    editText := "", saving := false, audio := { objs := [], current := none }
    toasts := [] }

/-- `loadProject`: `Promise.all` of the two GETs. Only when both succeed
does the continuation set `project` and `scenes`; any failure jumps to
the catch block, which toasts an error. The `finally` block clears
`loading` on every path. -/
def loadProject (projectId : String) (s : EditorState)
    (projectRes : Except String Project)
    (scenesRes : Except String (List Scene)) : EditorState × List Request :=
  let calls : List Request := [.getProjectReq projectId, .getScenesReq projectId]
  match projectRes, scenesRes with
  | .ok p, .ok scs =>
    ({ s with project := some p, scenes := scs, loading := false }, calls)
  | _, _ =>
    let s1 : EditorState := { s with
      toasts := s.toasts ++ [.error "Failed to load project"]
      loading := false }
    (s1, calls)

/-- What the editor renders as scene cards: the spinner screen while
`loading`, the mapped `scenes` array afterwards. -/
def renderedSceneCards (s : EditorState) : List Scene :=
  if s.loading then [] else s.scenes

/-- `handleEditScene(scene)`: stop and untrack any playing audio, then
mark the scene as being edited and seed the draft buffer with its
current description. -/
def handleEditScene (s : EditorState) (scene : Scene) : EditorState :=
  let audio1 : AudioSys :=
    match s.audio.current with
    | some _ => { objs := (stopTracked s.audio).objs, current := none }
    | none => s.audio
  { s with
    audio := audio1
    editingScene := some scene.id
    editText := scene.description }

/-- `handleSaveScene(sceneId)`: PUT the draft text; on success, map over
the local list replacing the description of entries with that id and
leave edit mode; on failure, toast and keep the draft/edit mode. The
`finally` block clears `saving`. -/
def handleSaveScene (s : EditorState) (sceneId : String)
    (saveRes : Except String Unit) : EditorState × List Request :=
  let calls : List Request := [.putSceneReq sceneId s.editText]
  match saveRes with
  | .ok _ =>
    let s1 : EditorState := { s with
      scenes := s.scenes.map (fun sc =>
        if sc.id = sceneId then { sc with description := s.editText } else sc)
      editingScene := none
      toasts := s.toasts ++ [.success "Scene updated successfully!"]
      saving := false }
    (s1, calls)
  | .error _ =>
    let s1 : EditorState := { s with
      toasts := s.toasts ++ [.error "Failed to save scene"]
      saving := false }
    (s1, calls)

/-- `Math.min` on two (non-NaN) numbers. -/
def mathMin (a b : ℚ) : ℚ := if a ≤ b then a else b

/-- `Math.max` on two (non-NaN) numbers. -/
def mathMax (a b : ℚ) : ℚ := if a ≤ b then b else a

/-- `Math.max(5, (scenes.length * 2) + 3)`: the heuristic export-time
estimate in seconds. -/
def estimatedSeconds (numScenes : ℕ) : ℚ :=
  mathMax 5 ((numScenes : ℚ) * 2 + 3)

/-- One `setInterval` callback body: `prev >= 85 ? Math.min(prev + 1, 95)
: prev + 85 / (estimatedSeconds * 2)`. -/
def progressTick (estSec : ℚ) (prev : ℚ) : ℚ :=
  if prev ≥ 85 then mathMin (prev + 1) 95
  else prev + 85 / (estSec * 2)

/-- Export-related state of the `EditorPage` component. `timerRunning`
models whether the `setInterval` handle is still scheduled. -/
structure ExportState where
  exporting : Bool
  showExportDialog : Bool
  exportFormat : String
  exportProgress : ℚ
  estimatedTime : ℚ
  timerRunning : Bool
  downloadTriggered : Bool
  toasts : List Toast
  deriving DecidableEq, Repr

/-- Initial export state (`useState` initialisers, dialog just opened). -/
def initExportState : ExportState :=
  { exporting := false, showExportDialog := true, exportFormat := "mp4"
    exportProgress := 0, estimatedTime := 0, timerRunning := false
    downloadTriggered := false, toasts := [] }

/-- The synchronous prefix of `handleExport`: set `exporting`, reset the
progress value, store the estimate, install the interval, toast the
info message. -/
def startExport (numScenes : ℕ) (s : ExportState) : ExportState :=
  { s with
    exporting := true
    exportProgress := 0
    estimatedTime := estimatedSeconds numScenes
    timerRunning := true
    toasts := s.toasts ++
      [.info ("Exporting video as " ++ s.exportFormat.toUpper ++ "...")] }

/-- One firing of the interval while it is scheduled; once
`clearInterval` has run, the callback no longer fires and the state is
unchanged. -/
def exportTick (s : ExportState) : ExportState :=
  if s.timerRunning then
    { s with exportProgress := progressTick s.estimatedTime s.exportProgress }
  else s

/-- The message displayed on export failure: long unstructured server
detail is replaced by a generic message. -/
def exportErrorMessage (err : String) : String :=
  if err.length > 100 then
    "Video export failed. Please check if all scenes have valid audio."
  else err

/-- The continuation of `handleExport` after the POST settles. Success:
`clearInterval`, force the bar to 100, then fetch the download (the
inner try toasts on its own failure and does not rethrow). Failure:
`clearInterval`, toast, reset progress and estimate to 0. `finally`
clears `exporting` on both paths. -/
def settleExport (exportRes : Except String String) (downloadOk : Bool)
    (s : ExportState) : ExportState :=
  match exportRes with
  | .ok _ =>
    let s1 : ExportState := { s with
      timerRunning := false
      exportProgress := 100
      exporting := false
      toasts := s.toasts ++ [.success "Starting download..."] }
    if downloadOk then
      { s1 with
        downloadTriggered := true
        toasts := s1.toasts ++ [.success "Download started!"] }
    else
      { s1 with toasts := s1.toasts ++ [.error "Download failed. Please try again."] }
  | .error err =>
    { s with
      timerRunning := false
      exportProgress := 0
      estimatedTime := 0
      exporting := false
      toasts := s.toasts ++ [.error (exportErrorMessage err)] }

/-- `n` successive firings of the interval starting from state `s`. -/
def runTicks (s : ExportState) : ℕ → ExportState
  | 0 => s
  | n + 1 => exportTick (runTicks s n)

/-- A full `handleExport` run: the synchronous prefix, `ticks` interval
firings while the POST is pending, then the settlement continuation. -/
def runExport (numScenes : ℕ) (ticks : ℕ) (exportRes : Except String String)
    (downloadOk : Bool) (s : ExportState) : ExportState :=
  settleExport exportRes downloadOk (runTicks (startExport numScenes s) ticks)

/-! ## Helper lemmas -/

theorem modifyAt_length (l : List α) (i : ℕ) (f : α → α) :
    (modifyAt l i f).length = l.length := by
  induction l generalizing i with
  | nil => rfl
  | cons a t ih =>
    cases i with
    | zero => rfl
    | succ n => simpa [modifyAt] using ih n

theorem getD_modifyAt_self (l : List α) (i : ℕ) (f : α → α) (d : α)
    (h : i < l.length) :
    (modifyAt l i f).getD i d = f (l.getD i d) := by
  induction l generalizing i with
  | nil => simp at h
  | cons a t ih =>
    cases i with
    | zero => rfl
    | succ n => simpa [modifyAt] using ih n (by simpa using h)

theorem getD_modifyAt_ne (l : List α) (i j : ℕ) (f : α → α) (d : α)
    (h : j ≠ i) :
    (modifyAt l i f).getD j d = l.getD j d := by
  induction l generalizing i j with
  | nil => rfl
  | cons a t ih =>
    cases i with
    | zero =>
      cases j with
      | zero => exact absurd rfl h
      | succ m => rfl
    | succ n =>
      cases j with
      | zero => rfl
      | succ m => simpa [modifyAt] using ih n m (by omega)

/-! ## Claims about the upload screen -/

/-- C4: a selected or dropped file whose MIME type does not start with
`video/` is rejected with a user-visible error toast, the selection is
untouched, and the handler issues no network request. -/
theorem c4_nonvideo_rejected (s : UploadState) (f : FileObj)
    (rest : List FileObj) (hf : isVideo f = false) :
    (handleFileSelect s (f :: rest)).2 = [] ∧
    (handleFileSelect s (f :: rest)).1.selectedFile = s.selectedFile ∧
    (handleFileSelect s (f :: rest)).1.toasts =
      s.toasts ++ [.error "Please upload a video file"] ∧
    (handleDrop s (f :: rest)).2 = [] ∧
    (handleDrop s (f :: rest)).1.selectedFile = s.selectedFile ∧
    (handleDrop s (f :: rest)).1.toasts =
      s.toasts ++ [.error "Please upload a video file"] := by
  refine ⟨?_, ?_, ?_, ?_, ?_, ?_⟩ <;> simp [handleFileSelect, handleDrop, hf]

/-- C4 witness at a concrete text file. -/
theorem c4_nonvideo_rejected_witness :
    isVideo { name := "notes.txt", type := "text/plain" } = false ∧
    (handleFileSelect initUploadState
      [{ name := "notes.txt", type := "text/plain" }]).2 = [] := by
  refine ⟨by decide, ?_⟩
  exact (c4_nonvideo_rejected initUploadState
    { name := "notes.txt", type := "text/plain" } [] (by decide)).1

/-- C5: when the selection exists and the upload POST returns a project
id, the run issues exactly the upload request followed by exactly one
analyze request for that id, and navigation to the editor happens
precisely when the analyze request also succeeds. -/
theorem c5_upload_then_single_analyze (s : UploadState) (f : FileObj)
    (pid : String) (analyzeRes : Except String Unit)
    (hsel : s.selectedFile = some f) :
    (handleUpload s (.ok pid) analyzeRes).calls =
      [.uploadReq f.name, .analyzeReq pid] ∧
    (handleUpload s (.ok pid) analyzeRes).navigatedTo =
      (if analyzeRes.isOk then some ("/editor/" ++ pid) else none) := by
  cases analyzeRes with
  | ok u => simp [handleUpload, hsel, Except.isOk, Except.toBool]
  | error e => simp [handleUpload, hsel, Except.isOk, Except.toBool]

/-- C5 witness at a concrete successful run. -/
theorem c5_upload_then_single_analyze_witness :
    ({ initUploadState with
        selectedFile := some { name := "clip.mp4", type := "video/mp4" } } :
        UploadState).selectedFile =
      some { name := "clip.mp4", type := "video/mp4" } ∧
    (handleUpload
        { initUploadState with
          selectedFile := some { name := "clip.mp4", type := "video/mp4" } }
        (.ok "p1") (.ok ())).calls = [.uploadReq "clip.mp4", .analyzeReq "p1"] := by
  refine ⟨rfl, ?_⟩
  exact (c5_upload_then_single_analyze
    { initUploadState with
      selectedFile := some { name := "clip.mp4", type := "video/mp4" } }
    { name := "clip.mp4", type := "video/mp4" } "p1" (.ok ()) rfl).1

/-- C6: when the upload or the analyze request fails, an error toast is
shown, no navigation happens, the selected file is kept unchanged, and
neither request is issued more than once. -/
theorem c6_failure_no_nav_no_retry (s : UploadState) (f : FileObj)
    (ur : Except String String) (ar : Except String Unit)
    (hsel : s.selectedFile = some f)
    (hfail : ur.isOk = false ∨ ar.isOk = false) :
    (handleUpload s ur ar).navigatedTo = none ∧
    Toast.error "Failed to upload video" ∈ (handleUpload s ur ar).state.toasts ∧
    (handleUpload s ur ar).state.selectedFile = some f ∧
    ((handleUpload s ur ar).calls.countP fun r =>
      match r with | .uploadReq _ => true | _ => false) ≤ 1 ∧
    ((handleUpload s ur ar).calls.countP fun r =>
      match r with | .analyzeReq _ => true | _ => false) ≤ 1 := by
  cases ur with
  | error e => simp [handleUpload, hsel, List.countP_cons]
  | ok pid =>
    cases ar with
    | error e => simp [handleUpload, hsel, List.countP_cons]
    | ok u => simp [Except.isOk, Except.toBool] at hfail

/-- C6 witness at a concrete failing analyze request. -/
theorem c6_failure_no_nav_no_retry_witness :
    ({ initUploadState with
        selectedFile := some { name := "clip.mp4", type := "video/mp4" } } :
        UploadState).selectedFile =
      some { name := "clip.mp4", type := "video/mp4" } ∧
    (Except.error "boom" : Except String Unit).isOk = false ∧
    (handleUpload
        { initUploadState with
          selectedFile := some { name := "clip.mp4", type := "video/mp4" } }
        (.ok "p1") (.error "boom")).navigatedTo = none := by
  refine ⟨rfl, rfl, ?_⟩
  exact (c6_failure_no_nav_no_retry
    { initUploadState with
      selectedFile := some { name := "clip.mp4", type := "video/mp4" } }
    { name := "clip.mp4", type := "video/mp4" } (.ok "p1") (.error "boom")
    rfl (Or.inr rfl)).1

/-- C10: a rejected non-video file does not clear a previously accepted
selection; a subsequent upload still posts the previously selected
video first. -/
theorem c10_rejection_keeps_selection (s : UploadState) (v f : FileObj)
    (rest : List FileObj) (hsel : s.selectedFile = some v)
    (hf : isVideo f = false) :
    (handleFileSelect s (f :: rest)).1.selectedFile = some v ∧
    (handleDrop s (f :: rest)).1.selectedFile = some v ∧
    (∀ ur ar,
      (handleUpload (handleFileSelect s (f :: rest)).1 ur ar).calls.head? =
        some (.uploadReq v.name)) ∧
    (∀ ur ar,
      (handleUpload (handleDrop s (f :: rest)).1 ur ar).calls.head? =
        some (.uploadReq v.name)) := by
  have hsel1 : (handleFileSelect s (f :: rest)).1.selectedFile = some v := by
    simp [handleFileSelect, hf, hsel]
  have hsel2 : (handleDrop s (f :: rest)).1.selectedFile = some v := by
    simp [handleDrop, hf, hsel]
  refine ⟨hsel1, hsel2, ?_, ?_⟩ <;>
  · intro ur ar
    cases ur with
    | error e => simp [handleUpload, hsel1, hsel2]
    | ok pid => cases ar with
      | error e => simp [handleUpload, hsel1, hsel2]
      | ok u => simp [handleUpload, hsel1, hsel2]

/-- C10 witness: a text file dropped after a video was selected. -/
theorem c10_rejection_keeps_selection_witness :
    ({ initUploadState with
        selectedFile := some { name := "clip.mp4", type := "video/mp4" } } :
        UploadState).selectedFile =
      some { name := "clip.mp4", type := "video/mp4" } ∧
    isVideo { name := "notes.txt", type := "text/plain" } = false ∧
    (handleFileSelect
        { initUploadState with
          selectedFile := some { name := "clip.mp4", type := "video/mp4" } }
        [{ name := "notes.txt", type := "text/plain" }]).1.selectedFile =
      some { name := "clip.mp4", type := "video/mp4" } := by
  refine ⟨rfl, by decide, ?_⟩
  exact (c10_rejection_keeps_selection
    { initUploadState with
      selectedFile := some { name := "clip.mp4", type := "video/mp4" } }
    { name := "clip.mp4", type := "video/mp4" }
    { name := "notes.txt", type := "text/plain" } [] rfl (by decide)).1

/-! ## Claims about the editor screen -/

/-- C3: on mount, the metadata fetch and the scene-list fetch must both
succeed before any scene cards are rendered; any failure leaves an error
toast, an empty card list, and loading abandoned. -/
theorem c3_load_all_or_nothing (pid : String) (pr : Except String Project)
    (sr : Except String (List Scene)) :
    (loadProject pid initEditorState pr sr).1.loading = false ∧
    (loadProject pid initEditorState pr sr).2 = [.getProjectReq pid, .getScenesReq pid] ∧
    (match pr, sr with
     | .ok p, .ok scs =>
        renderedSceneCards (loadProject pid initEditorState pr sr).1 = scs ∧
        (loadProject pid initEditorState pr sr).1.project = some p
     | _, _ =>
        renderedSceneCards (loadProject pid initEditorState pr sr).1 = [] ∧
        (loadProject pid initEditorState pr sr).1.project = none ∧
        Toast.error "Failed to load project" ∈
          (loadProject pid initEditorState pr sr).1.toasts) := by
  cases pr with
  | ok p =>
    cases sr with
    | ok scs => simp [loadProject, renderedSceneCards, initEditorState]
    | error e => simp [loadProject, renderedSceneCards, initEditorState]
  | error e =>
    cases sr with
    | ok scs => simp [loadProject, renderedSceneCards, initEditorState]
    | error e2 => simp [loadProject, renderedSceneCards, initEditorState]

/-- C7: a successful save replaces exactly the description of the
matching scene entries with the draft text, leaving every entry with a
different id untouched and preserving the order and length of the list. -/
theorem c7_save_updates_only_target (s : EditorState) (sceneId : String) :
    (handleSaveScene s sceneId (.ok ())).1.scenes.length = s.scenes.length ∧
    (∀ (i : ℕ) (sc : Scene), s.scenes[i]? = some sc → sc.id ≠ sceneId →
      (handleSaveScene s sceneId (.ok ())).1.scenes[i]? = some sc) ∧
    (∀ (i : ℕ) (sc : Scene), s.scenes[i]? = some sc → sc.id = sceneId →
      (handleSaveScene s sceneId (.ok ())).1.scenes[i]? =
        some { sc with description := s.editText }) ∧
    (handleSaveScene s sceneId (.ok ())).1.editingScene = none ∧
    (handleSaveScene s sceneId (.ok ())).2 = [.putSceneReq sceneId s.editText] := by
  refine ⟨?_, ?_, ?_, ?_, ?_⟩
  · simp [handleSaveScene]
  · intro i sc hget hne
    simp [handleSaveScene, List.getElem?_map, hget, hne]
  · intro i sc hget heq
    simp [handleSaveScene, List.getElem?_map, hget, heq]
  · simp [handleSaveScene]
  · simp [handleSaveScene]

/-- C7 witness on a concrete two-scene list: the length is preserved and
the first scene, whose id differs from the saved one, is untouched. -/
theorem c7_save_updates_only_target_witness :
    (handleSaveScene
      { initEditorState with
        scenes := [{ id := "s1", timestamp := 1, description := "a",
                     thumbnail_path := "t1", audio_path := "a1" },
                   { id := "s2", timestamp := 2, description := "b",
                     thumbnail_path := "t2", audio_path := "a2" }]
        editText := "new" }
      "s2" (.ok ())).1.scenes.length = 2 ∧
    (handleSaveScene
      { initEditorState with
        scenes := [{ id := "s1", timestamp := 1, description := "a",
                     thumbnail_path := "t1", audio_path := "a1" },
                   { id := "s2", timestamp := 2, description := "b",
                     thumbnail_path := "t2", audio_path := "a2" }]
        editText := "new" }
      "s2" (.ok ())).1.scenes[0]? =
      some { id := "s1", timestamp := 1, description := "a",
             thumbnail_path := "t1", audio_path := "a1" } := by
  constructor
  · exact (c7_save_updates_only_target
      { initEditorState with
        scenes := [{ id := "s1", timestamp := 1, description := "a",
                     thumbnail_path := "t1", audio_path := "a1" },
                   { id := "s2", timestamp := 2, description := "b",
                     thumbnail_path := "t2", audio_path := "a2" }]
        editText := "new" }
      "s2").1
  · exact (c7_save_updates_only_target
      { initEditorState with
        scenes := [{ id := "s1", timestamp := 1, description := "a",
                     thumbnail_path := "t1", audio_path := "a1" },
                   { id := "s2", timestamp := 2, description := "b",
                     thumbnail_path := "t2", audio_path := "a2" }]
        editText := "new" }
      "s2").2.1 0
      { id := "s1", timestamp := 1, description := "a",
        thumbnail_path := "t1", audio_path := "a1" } rfl (by decide)

/-- C8: entering edit mode stops the tracked audio clip (pausing it and
resetting its position), clears the tracked reference, marks the scene
as the one being edited, and seeds the draft buffer with its current
description. -/
theorem c8_edit_stops_audio_and_seeds_draft (s : EditorState) (scene : Scene)
    (i : ℕ) (hcur : s.audio.current = some i) (hi : i < s.audio.objs.length) :
    (handleEditScene s scene).editingScene = some scene.id ∧
    (handleEditScene s scene).editText = scene.description ∧
    (handleEditScene s scene).audio.current = none ∧
    (handleEditScene s scene).audio.objs.getD i default =
      pauseAndReset (s.audio.objs.getD i default) ∧
    ((handleEditScene s scene).audio.objs.getD i default).paused = true ∧
    ((handleEditScene s scene).audio.objs.getD i default).currentTime = 0 ∧
    (handleEditScene s scene).audio.objs.length = s.audio.objs.length ∧
    (∀ j, j ≠ i → (handleEditScene s scene).audio.objs.getD j default =
      s.audio.objs.getD j default) := by
  have hobjs : (handleEditScene s scene).audio.objs =
      modifyAt s.audio.objs i pauseAndReset := by
    simp [handleEditScene, stopTracked, hcur]
  have hmain : (handleEditScene s scene).audio.objs.getD i default =
      pauseAndReset (s.audio.objs.getD i default) := by
    rw [hobjs]; exact getD_modifyAt_self _ _ _ _ hi
  refine ⟨?_, ?_, ?_, hmain, ?_, ?_, ?_, ?_⟩
  · simp [handleEditScene]
  · simp [handleEditScene]
  · simp [handleEditScene, hcur]
  · rw [hmain]; rfl
  · rw [hmain]; rfl
  · rw [hobjs]; exact modifyAt_length _ _ _
  · intro j hj
    rw [hobjs]; exact getD_modifyAt_ne _ _ _ _ _ hj

/-- C8 witness with one playing clip tracked. -/
theorem c8_edit_stops_audio_and_seeds_draft_witness :
    (handleEditScene
      { initEditorState with
        audio := { objs := [{ src := "u", paused := false, currentTime := 3 }],
                   current := some 0 } }
      { id := "s1", timestamp := 1, description := "d",
        thumbnail_path := "t", audio_path := "a" }).audio.current = none := by
  exact (c8_edit_stops_audio_and_seeds_draft
    { initEditorState with
      audio := { objs := [{ src := "u", paused := false, currentTime := 3 }],
                 current := some 0 } }
    { id := "s1", timestamp := 1, description := "d",
      thumbnail_path := "t", audio_path := "a" }
    0 rfl (by simp)).2.2.1

/-! ## Claims about audio playback -/

/-- C1: `playAudio`, called while a clip is tracked, factors as stopping
first and starting second: the tracked clip is paused with its position
reset to 0 before the new clip begins (after the stop phase every clip
is paused), the tracked reference is replaced by the new clip, and the
single-flight invariant — every unpaused clip is the tracked one, hence
at most one clip plays — is preserved. -/
theorem c1_play_audio_single_flight (api pid path : String) (sys : AudioSys)
    (i : ℕ) (hcur : sys.current = some i) (hi : i < sys.objs.length)
    (hinv : OnlyCurrentPlaying sys) :
    playAudio api pid path true sys =
      startNew (audioUrl api pid path) true (stopTracked sys) ∧
    AllPaused (stopTracked sys) ∧
    (stopTracked sys).objs.getD i default =
      pauseAndReset (sys.objs.getD i default) ∧
    (playAudio api pid path true sys).objs.getD i default =
      pauseAndReset (sys.objs.getD i default) ∧
    (playAudio api pid path true sys).current = some sys.objs.length ∧
    sys.objs.length ≠ i ∧
    (playAudio api pid path true sys).objs.getD sys.objs.length default =
      { src := audioUrl api pid path, paused := false, currentTime := 0 } ∧
    OnlyCurrentPlaying (playAudio api pid path true sys) := by
  have hstop : (stopTracked sys).objs = modifyAt sys.objs i pauseAndReset := by
    simp [stopTracked, hcur]
  have hstoplen : (stopTracked sys).objs.length = sys.objs.length := by
    rw [hstop]; exact modifyAt_length _ _ _
  have hplay : (playAudio api pid path true sys).objs =
      modifyAt sys.objs i pauseAndReset ++
        [{ src := audioUrl api pid path, paused := false, currentTime := 0 }] := by
    simp [playAudio, startNew, hstop]
  have hallp : AllPaused (stopTracked sys) := by
    intro j hj
    rw [hstoplen] at hj
    rcases Decidable.eq_or_ne j i with rfl | hji
    · rw [hstop, getD_modifyAt_self _ _ _ _ hj]; rfl
    · rw [hstop, getD_modifyAt_ne _ _ _ _ _ hji]
      cases hp : (sys.objs.getD j default).paused with
      | true => rfl
      | false =>
        have := hinv j hj hp
        rw [hcur] at this
        exact absurd (Option.some.inj this.symm) hji
  have hstopD : (stopTracked sys).objs.getD i default =
      pauseAndReset (sys.objs.getD i default) := by
    rw [hstop]; exact getD_modifyAt_self _ _ _ _ hi
  have hplayD : (playAudio api pid path true sys).objs.getD i default =
      pauseAndReset (sys.objs.getD i default) := by
    rw [hplay, List.getD_append _ _ _ _ (by rw [modifyAt_length]; exact hi)]
    exact getD_modifyAt_self _ _ _ _ hi
  have hcur' : (playAudio api pid path true sys).current =
      some sys.objs.length := by
    simp [playAudio, startNew, hstoplen]
  have hnewD : (playAudio api pid path true sys).objs.getD sys.objs.length
      default =
      { src := audioUrl api pid path, paused := false, currentTime := 0 } := by
    rw [hplay,
      List.getD_append_right _ _ _ _ (by rw [modifyAt_length])]
    rw [modifyAt_length, Nat.sub_self]
    rfl
  refine ⟨rfl, hallp, hstopD, hplayD, hcur', by omega, hnewD, ?_⟩
  intro j hj hp
  rw [hplay, List.length_append, modifyAt_length] at hj
  simp only [List.length_singleton] at hj
  rcases Nat.lt_or_ge j sys.objs.length with hlt | hge
  · exfalso
    rw [hplay, List.getD_append _ _ _ _ (by rw [modifyAt_length]; exact hlt)]
      at hp
    rcases Decidable.eq_or_ne j i with rfl | hji
    · rw [getD_modifyAt_self _ _ _ _ hlt] at hp
      simp [pauseAndReset] at hp
    · rw [getD_modifyAt_ne _ _ _ _ _ hji] at hp
      have := hinv j hlt hp
      rw [hcur] at this
      exact hji (Option.some.inj this.symm)
  · have hj' : j = sys.objs.length := by omega
    rw [hcur', hj']

/-- C1 witness: one tracked playing clip, then `playAudio` of a second. -/
theorem c1_play_audio_single_flight_witness :
    ({ objs := [{ src := "u", paused := false, currentTime := 3 }],
       current := some 0 } : AudioSys).current = some 0 ∧
    (playAudio "api" "p1" "scenes/a2.mp3" true
      { objs := [{ src := "u", paused := false, currentTime := 3 }],
        current := some 0 }).current = some 1 := by
  refine ⟨rfl, ?_⟩
  exact (c1_play_audio_single_flight "api" "p1" "scenes/a2.mp3"
    { objs := [{ src := "u", paused := false, currentTime := 3 }],
      current := some 0 }
    0 rfl (by simp) (by decide)).2.2.2.2.1

/-! ## Claims about the export flow -/

/-- C2 counterexample: with one scene (a 5-second estimate), after 20
interval firings the progress value is 95 with the timer still running,
and the 21st firing leaves it at exactly 95 — the value stays constant
on a tick without having reached 100 or been reset to 0. -/
theorem c2_progress_plateau_counterexample :
    (runTicks (startExport 1 initExportState) 20).timerRunning = true ∧
    (runTicks (startExport 1 initExportState) 20).exportProgress = 95 ∧
    (runTicks (startExport 1 initExportState) 21).exportProgress =
      (runTicks (startExport 1 initExportState) 20).exportProgress := by
  norm_num [runTicks, exportTick, startExport, initExportState, progressTick,
    mathMin, estimatedSeconds, mathMax]

/-- C2 (amended): across timer ticks the simulated progress value never
decreases and stays within `[0, 95]`; it strictly increases while below
the 95 cap and remains at 95 once the cap is reached; on settlement it
is forced to 100 on server success and reset to 0 on server failure. -/
theorem c2_progress_monotone_capped (numScenes : ℕ) (p : ℚ)
    (hp0 : 0 ≤ p) (hp95 : p ≤ 95) :
    p ≤ progressTick (estimatedSeconds numScenes) p ∧
    (p < 95 → p < progressTick (estimatedSeconds numScenes) p) ∧
    progressTick (estimatedSeconds numScenes) 95 = 95 ∧
    0 ≤ progressTick (estimatedSeconds numScenes) p ∧
    progressTick (estimatedSeconds numScenes) p ≤ 95 ∧
    (∀ (ticks : ℕ) (dl : Bool) (url : String) (s : ExportState),
      (runExport numScenes ticks (.ok url) dl s).exportProgress = 100) ∧
    (∀ (ticks : ℕ) (dl : Bool) (err : String) (s : ExportState),
      (runExport numScenes ticks (.error err) dl s).exportProgress = 0) := by
  have hest5 : (5 : ℚ) ≤ estimatedSeconds numScenes := by
    unfold estimatedSeconds mathMax
    split
    · assumption
    · exact le_refl 5
  have hpos : (0 : ℚ) < estimatedSeconds numScenes * 2 := by linarith
  have hδpos : 0 < 85 / (estimatedSeconds numScenes * 2) :=
    div_pos (by norm_num) hpos
  have hδle : 85 / (estimatedSeconds numScenes * 2) ≤ 17 / 2 := by
    rw [div_le_iff₀ hpos]
    nlinarith
  have h95 : progressTick (estimatedSeconds numScenes) 95 = 95 := by
    unfold progressTick mathMin
    norm_num
  have hmono : p ≤ progressTick (estimatedSeconds numScenes) p ∧
      (p < 95 → p < progressTick (estimatedSeconds numScenes) p) ∧
      0 ≤ progressTick (estimatedSeconds numScenes) p ∧
      progressTick (estimatedSeconds numScenes) p ≤ 95 := by
    unfold progressTick mathMin
    split_ifs with h1 h2
    · exact ⟨by linarith, fun _ => by linarith, by linarith, h2⟩
    · exact ⟨hp95, fun h => h, by linarith, le_refl 95⟩
    · exact ⟨by linarith, fun _ => by linarith, by linarith, by linarith⟩
  have hsucc : ∀ (ticks : ℕ) (dl : Bool) (url : String) (s : ExportState),
      (runExport numScenes ticks (.ok url) dl s).exportProgress = 100 := by
    intro ticks dl url s
    cases dl <;> simp [runExport, settleExport]
  have hfail : ∀ (ticks : ℕ) (dl : Bool) (err : String) (s : ExportState),
      (runExport numScenes ticks (.error err) dl s).exportProgress = 0 := by
    intro ticks dl err s
    simp [runExport, settleExport]
  exact ⟨hmono.1, hmono.2.1, h95, hmono.2.2.1, hmono.2.2.2, hsucc, hfail⟩

/-- C2 amended-claim witness at one scene and progress 0. -/
theorem c2_progress_monotone_capped_witness :
    (0 : ℚ) ≤ 0 ∧ (0 : ℚ) ≤ 95 ∧
    (0 : ℚ) ≤ progressTick (estimatedSeconds 1) 0 := by
  refine ⟨le_refl 0, by norm_num, ?_⟩
  exact (c2_progress_monotone_capped 1 0 (le_refl 0) (by norm_num)).1

/-- C9: after the export request settles — success or failure — the
interval has been cancelled: the timer is not running, and a further
tick firing leaves the settled state unchanged. -/
theorem c9_timer_cancelled_on_settlement (numScenes ticks : ℕ)
    (exportRes : Except String String) (downloadOk : Bool) (s : ExportState) :
    (runExport numScenes ticks exportRes downloadOk s).timerRunning = false ∧
    exportTick (runExport numScenes ticks exportRes downloadOk s) =
      runExport numScenes ticks exportRes downloadOk s := by
  have h1 : (runExport numScenes ticks exportRes downloadOk s).timerRunning
      = false := by
    cases exportRes with
    | ok url => cases downloadOk <;> simp [runExport, settleExport]
    | error e => simp [runExport, settleExport]
  refine ⟨h1, ?_⟩
  unfold exportTick
  rw [h1]
  simp

end GappyVSD
